import Mathlib

/-!
Verification of the ToDoList backend (boards / categories / goals / comments
plus a Telegram-bot linking record) against its specification.

The database is embedded shallowly: each Django model becomes a structure,
the store becomes lists of rows, querysets become `List.filter` with the
predicates taken from the `get_queryset` methods in `goals/views.py`, and
the `perform_destroy` methods become explicit state-transforming functions.
-/

namespace ToDoList

/-- Goal status enum. Modelled from the spec: the `goals` app model module is
not among the provided sources; the spec's data-model table lists
`status{in_progress,done,archived,...}` with `archived` the terminal status
used by the views. -/
inductive Status
  | to_do
  | in_progress
  | done
  | archived
  deriving DecidableEq, Repr

/-- A Board row. Modelled from the spec: `title`, `is_deleted`,
participants held in a separate association table. -/
structure Board where
  id : Nat
  title : String
  is_deleted : Bool
  deriving DecidableEq, Repr

/-- A row of the Board–User participation association
(`board__participants__user` traversals in `goals/views.py`). -/
structure BoardParticipant where
  board : Nat
  user : Nat
  deriving DecidableEq, Repr

/-- A GoalCategory row: belongs to a Board, supports soft delete. -/
structure GoalCategory where
  id : Nat
  board : Nat
  title : String
  is_deleted : Bool
  deriving DecidableEq, Repr

/-- A Goal row: belongs to a GoalCategory, carries a status. -/
structure Goal where
  id : Nat
  category : Nat
  title : String
  status : Status
  deriving DecidableEq, Repr

/-- A GoalComment row: belongs to a Goal, owned by a user. -/
structure GoalComment where
  id : Nat
  goal : Nat
  user : Nat
  text : String
  deriving DecidableEq, Repr

/-- The relational store: one list of rows per table. -/
structure DB where
  boards : List Board
  participants : List BoardParticipant
  categories : List GoalCategory
  goals : List Goal
  comments : List GoalComment
  deriving DecidableEq, Repr

/-- `participants__user=u` on a board id: some participation row joins the
board to user `u`. -/
def boardHasParticipant (db : DB) (bid u : Nat) : Bool :=
  db.participants.any fun p => p.board == bid && p.user == u

/-- The join `board__participants__user=u` from a category: the category's
board row exists and has `u` among its participants. -/
def catReach (db : DB) (u : Nat) (c : GoalCategory) : Bool :=
  db.boards.any fun b => b.id == c.board && boardHasParticipant db b.id u

/-- The join `category__board__participants__user=u` from a goal. -/
def goalReach (db : DB) (u : Nat) (g : Goal) : Bool :=
  db.categories.any fun c => c.id == g.category && catReach db u c

/-- The join `goal__category__board__participants__user=u` from a comment. -/
def commentReach (db : DB) (u : Nat) (cm : GoalComment) : Bool :=
  db.goals.any fun g => g.id == cm.goal && goalReach db u g

/-- `GoalCategoryListView.get_queryset` (`goals/views.py:50`):
`GoalCategory.objects.filter(board__participants__user=user, is_deleted=False)`. -/
def goalCategoryListQueryset (db : DB) (u : Nat) : List GoalCategory :=
  db.categories.filter fun c => catReach db u c && !c.is_deleted

/-- `GoalCategoryView.get_queryset` (`goals/views.py:62`): same filter as the
list view. -/
def goalCategoryDetailQueryset (db : DB) (u : Nat) : List GoalCategory :=
  db.categories.filter fun c => catReach db u c && !c.is_deleted

/-- `GoalListView.get_queryset` (`goals/views.py:93`):
`Goal.objects.filter(category__board__participants__user=user).exclude(status=archived)`. -/
def goalListQueryset (db : DB) (u : Nat) : List Goal :=
  db.goals.filter fun g => goalReach db u g && !(g.status == Status.archived)

/-- `GoalView.get_queryset` (`goals/views.py:105`): participant filter only,
archived goals are not excluded on the detail view. -/
def goalDetailQueryset (db : DB) (u : Nat) : List Goal :=
  db.goals.filter fun g => goalReach db u g

/-- `GoalCommentListView.get_queryset` (`goals/views.py:135`). -/
def goalCommentListQueryset (db : DB) (u : Nat) : List GoalComment :=
  db.comments.filter fun cm => commentReach db u cm

/-- `GoalCommentView.get_queryset` (`goals/views.py:146`). -/
def goalCommentDetailQueryset (db : DB) (u : Nat) : List GoalComment :=
  db.comments.filter fun cm => commentReach db u cm

/-- `BoardListView.get_queryset` (`goals/views.py:166`):
`Board.objects.filter(participants__user=user, is_deleted=False)`. -/
def boardListQueryset (db : DB) (u : Nat) : List Board :=
  db.boards.filter fun b => boardHasParticipant db b.id u && !b.is_deleted

/-- `BoardView.get_queryset` (`goals/views.py:177`): same filter as the list
view. -/
def boardDetailQueryset (db : DB) (u : Nat) : List Board :=
  db.boards.filter fun b => boardHasParticipant db b.id u && !b.is_deleted

/-- `GoalCategoryView.perform_destroy` (`goals/views.py:65`): set
`is_deleted = True` on the instance and `save()` it, i.e. write the
instance's fields back to the row with its primary key. -/
def goalCategoryDestroy (db : DB) (inst : GoalCategory) : DB :=
  { db with categories := db.categories.map fun c =>
      if c.id == inst.id then { inst with is_deleted := true } else c }

/-- `GoalView.perform_destroy` (`goals/views.py:108`): set
`status = archived` on the instance and `save()` it. -/
def goalDestroy (db : DB) (inst : Goal) : DB :=
  { db with goals := db.goals.map fun g =>
      if g.id == inst.id then { inst with status := Status.archived } else g }

/-- `GoalCommentView` does not override `perform_destroy`, so the framework
default runs `instance.delete()`: the row is removed from the store. -/
def goalCommentDestroy (db : DB) (inst : GoalComment) : DB :=
  { db with comments := db.comments.filter fun cm => !(cm.id == inst.id) }

/-- `category__board = bid` for a goal: some category row is the goal's
category and belongs to board `bid`. -/
def goalInBoard (cats : List GoalCategory) (bid : Nat) (g : Goal) : Bool :=
  cats.any fun c => c.id == g.category && c.board == bid

/-- Step (a) of `BoardView.perform_destroy`: `instance.is_deleted = True;
instance.save()` — the instance's fields are written back to the row with
its primary key. -/
def boardDestroyBoards (inst : Board) (bs : List Board) : List Board :=
  bs.map fun b => if b.id == inst.id then { inst with is_deleted := true } else b

/-- Step (b) of `BoardView.perform_destroy`:
`instance.categories.update(is_deleted=True)` — every category row of the
board gets its `is_deleted` column set. -/
def boardDestroyCats (bid : Nat) (cats : List GoalCategory) : List GoalCategory :=
  cats.map fun c => if c.board == bid then { c with is_deleted := true } else c

/-- Step (c) of `BoardView.perform_destroy`:
`Goal.objects.filter(category__board=instance).update(status=archived)` —
every goal whose category row belongs to the board gets `status` set. -/
def boardDestroyGoals (cats : List GoalCategory) (bid : Nat) (gs : List Goal) :
    List Goal :=
  gs.map fun g =>
    if goalInBoard cats bid g then { g with status := Status.archived } else g

/-- `BoardView.perform_destroy` (`goals/views.py:181`): inside one
transaction, save the instance with `is_deleted = True`, then
`instance.categories.update(is_deleted=True)`, then
`Goal.objects.filter(category__board=instance).update(status=archived)`.
The goal update runs against the store after the category update. -/
def boardDestroy (db : DB) (inst : Board) : DB :=
  { db with
    boards := boardDestroyBoards inst db.boards
    categories := boardDestroyCats inst.id db.categories
    goals := boardDestroyGoals (boardDestroyCats inst.id db.categories) inst.id
      db.goals }

/-- The body of `BoardView.perform_destroy` with a failure oracle: each of
the three database writes may fail (flag `true` means that write raises),
in the order the code performs them. -/
def boardDestroyBody (inst : Board) (f1 f2 f3 : Bool) (db : DB) : Option DB :=
  if f1 then none else
  let db1 := { db with boards := boardDestroyBoards inst db.boards }
  if f2 then none else
  let db2 := { db1 with categories := boardDestroyCats inst.id db1.categories }
  if f3 then none else
  some { db2 with goals := boardDestroyGoals db2.categories inst.id db2.goals }

/-- `transaction.atomic()` semantics: if the body raises, the store is
rolled back to its pre-transaction state. -/
def atomically (body : DB → Option DB) (db : DB) : DB :=
  match body db with
  | some db2 => db2
  | none => db

/-- `BoardView.perform_destroy` run under `with transaction.atomic():`,
with a failure oracle for the three writes. -/
def boardDestroyTx (db : DB) (inst : Board) (f1 f2 f3 : Bool) : DB :=
  atomically (boardDestroyBody inst f1 f2 f3) db

/-- The default vocabulary of the framework's `get_random_string`:
ASCII letters and digits. -/
def allowedChars : List Char :=
  "abcdefghijklmnopqrstuvwxyzABCDEFGHIJKLMNOPQRSTUVWXYZ0123456789".toList

/-- The framework's `get_random_string(length)`: one character chosen from
the vocabulary per position. The randomness source is exposed as a choice
function `pick`; position `i` receives the vocabulary character at index
`pick i` modulo the vocabulary size. -/
def get_random_string (length : Nat) (pick : Nat → Nat) : String :=
  String.mk ((List.range length).map fun i =>
    allowedChars.getD (pick i % allowedChars.length) 'a')

/-- A TgUser row (`bot/models.py:8`). -/
structure TgUser where
  tg_user_id : Int
  tg_chat_id : Int
  tg_username : String
  verification_code : String
  user : Option Nat
  deriving DecidableEq, Repr

/-- `TgUser.set_verification_code` (`bot/models.py:21`): generate
`get_random_string(10)`, store it in `verification_code`, save, and return
the code. Returns the saved record together with the returned string. -/
def set_verification_code (t : TgUser) (pick : Nat → Nat) : TgUser × String :=
  let code := get_random_string 10 pick
  ({ t with verification_code := code }, code)

/-- The spec's reachability wording for a category, as a proposition:
a board row exists that is the category's board and has the user among
its participants. -/
def ParticipantReachableCat (db : DB) (u : Nat) (c : GoalCategory) : Prop :=
  ∃ b ∈ db.boards, b.id = c.board ∧
    ∃ p ∈ db.participants, p.board = b.id ∧ p.user = u

/-- The spec's reachability wording for a goal: its category row exists and
is participant-reachable. -/
def ParticipantReachableGoal (db : DB) (u : Nat) (g : Goal) : Prop :=
  ∃ c ∈ db.categories, c.id = g.category ∧ ParticipantReachableCat db u c

/-- The spec's reachability wording for a comment: its goal row exists and
is participant-reachable. -/
def ParticipantReachableComment (db : DB) (u : Nat) (cm : GoalComment) : Prop :=
  ∃ g ∈ db.goals, g.id = cm.goal ∧ ParticipantReachableGoal db u g

/-- The spec's reachability wording for a board itself: the user is among
its participants. -/
def ParticipantReachableBoard (db : DB) (u : Nat) (b : Board) : Prop :=
  ∃ p ∈ db.participants, p.board = b.id ∧ p.user = u

/-- A concrete store used to instantiate theorems with hypotheses:
two boards (one soft-deleted), one user participating in both, two
categories, two goals, one comment. -/
def sampleDB : DB :=
  { boards := [⟨1, "b", false⟩, ⟨2, "x", true⟩]
    participants := [⟨1, 7⟩, ⟨2, 7⟩]
    categories := [⟨10, 1, "c", false⟩, ⟨11, 2, "d", true⟩]
    goals := [⟨100, 10, "g", Status.in_progress⟩, ⟨101, 10, "ga", Status.archived⟩]
    comments := [⟨1000, 100, 7, "hi"⟩] }


/-- C1: `BoardView.perform_destroy` soft-deletes the board row, soft-deletes
every category row of that board, and archives every goal whose category
row belongs to that board. -/
theorem board_destroy_cascade (db : DB) (inst : Board) :
    (∀ b ∈ (boardDestroy db inst).boards, b.id = inst.id → b.is_deleted = true) ∧
    (∀ c ∈ (boardDestroy db inst).categories, c.board = inst.id →
      c.is_deleted = true) ∧
    (∀ g ∈ (boardDestroy db inst).goals,
      goalInBoard (boardDestroy db inst).categories inst.id g = true →
        g.status = Status.archived) := by
  refine ⟨?_, ?_, ?_⟩
  · intro b hb hid
    simp only [boardDestroy, boardDestroyBoards, List.mem_map] at hb
    obtain ⟨b0, _, heq⟩ := hb
    subst heq
    by_cases h : (b0.id == inst.id) = true
    · simp [h]
    · simp only [h, if_neg, Bool.false_eq_true, if_false] at hid ⊢
      exact absurd hid (by simpa using h)
  · intro c hc hid
    simp only [boardDestroy, boardDestroyCats, List.mem_map] at hc
    obtain ⟨c0, _, heq⟩ := hc
    subst heq
    by_cases h : (c0.board == inst.id) = true
    · simp [h]
    · simp only [h, Bool.false_eq_true, if_false] at hid ⊢
      exact absurd hid (by simpa using h)
  · intro g hg hid
    simp only [boardDestroy, boardDestroyGoals, List.mem_map] at hg
    obtain ⟨g0, _, heq⟩ := hg
    subst heq
    by_cases h : goalInBoard (boardDestroyCats inst.id db.categories) inst.id g0 = true
    · simp [h]
    · simp only [boardDestroy] at hid
      rw [if_neg (by simpa using h)] at hid ⊢
      exact absurd hid h

theorem board_destroy_cascade_witness :
    (⟨10, 1, "c", true⟩ : GoalCategory) ∈
        (boardDestroy sampleDB ⟨1, "b", false⟩).categories ∧
    (⟨10, 1, "c", true⟩ : GoalCategory).is_deleted = true :=
  ⟨by decide,
    (board_destroy_cascade sampleDB ⟨1, "b", false⟩).2.1 ⟨10, 1, "c", true⟩
      (by decide) rfl⟩

/-- C2: the three writes of `BoardView.perform_destroy` run inside one
transaction: if any of them fails, the store is unchanged, and if none
fails, the result is exactly the full cascade. -/
theorem board_destroy_atomic (db : DB) (inst : Board) (f1 f2 f3 : Bool) :
    ((f1 || f2 || f3) = true → boardDestroyTx db inst f1 f2 f3 = db) ∧
    ((f1 || f2 || f3) = false →
      boardDestroyTx db inst f1 f2 f3 = boardDestroy db inst) := by
  constructor <;> intro h <;> cases f1 <;> cases f2 <;> cases f3 <;> first
    | rfl
    | cases h

theorem board_destroy_atomic_witness :
    ((false : Bool) || true || false) = true ∧
    boardDestroyTx sampleDB ⟨1, "b", false⟩ false true false = sampleDB :=
  ⟨by decide, (board_destroy_atomic sampleDB ⟨1, "b", false⟩ false true false).1
    (by decide)⟩

/-- C3: the goal list queryset never contains an archived goal, nor a goal
that is not reachable through a board on which the user participates. -/
theorem goal_list_excludes_archived_and_foreign (db : DB) (u : Nat) (g : Goal)
    (h : g ∈ goalListQueryset db u) :
    g.status ≠ Status.archived ∧ ParticipantReachableGoal db u g := by
  simp only [goalListQueryset, List.mem_filter, Bool.and_eq_true,
    Bool.not_eq_true', beq_eq_false_iff_ne] at h
  obtain ⟨-, hreach, hstat⟩ := h
  refine ⟨hstat, ?_⟩
  simp only [goalReach, List.any_eq_true, Bool.and_eq_true, beq_iff_eq] at hreach
  obtain ⟨c, hc, hcid, hcr⟩ := hreach
  simp only [catReach, List.any_eq_true, Bool.and_eq_true, beq_iff_eq] at hcr
  obtain ⟨b, hb, hbid, hbp⟩ := hcr
  simp only [boardHasParticipant, List.any_eq_true, Bool.and_eq_true,
    beq_iff_eq] at hbp
  obtain ⟨p, hp, hpb, hpu⟩ := hbp
  exact ⟨c, hc, hcid, b, hb, hbid, p, hp, hpb, hpu⟩

theorem goal_list_excludes_archived_and_foreign_witness :
    (⟨100, 10, "g", Status.in_progress⟩ : Goal) ∈ goalListQueryset sampleDB 7 ∧
    ((⟨100, 10, "g", Status.in_progress⟩ : Goal).status ≠ Status.archived ∧
      ParticipantReachableGoal sampleDB 7 ⟨100, 10, "g", Status.in_progress⟩) :=
  ⟨by decide,
    goal_list_excludes_archived_and_foreign sampleDB 7 _ (by decide)⟩

lemma boardHasParticipant_iff (db : DB) (u : Nat) (b : Board) :
    boardHasParticipant db b.id u = true ↔ ParticipantReachableBoard db u b := by
  simp only [boardHasParticipant, ParticipantReachableBoard, List.any_eq_true,
    Bool.and_eq_true, beq_iff_eq]

lemma catReach_iff (db : DB) (u : Nat) (c : GoalCategory) :
    catReach db u c = true ↔ ParticipantReachableCat db u c := by
  simp only [catReach, boardHasParticipant, ParticipantReachableCat,
    List.any_eq_true, Bool.and_eq_true, beq_iff_eq]

lemma goalReach_iff (db : DB) (u : Nat) (g : Goal) :
    goalReach db u g = true ↔ ParticipantReachableGoal db u g := by
  simp only [goalReach, ParticipantReachableGoal, List.any_eq_true,
    Bool.and_eq_true, beq_iff_eq, catReach_iff]

lemma commentReach_iff (db : DB) (u : Nat) (cm : GoalComment) :
    commentReach db u cm = true ↔ ParticipantReachableComment db u cm := by
  simp only [commentReach, ParticipantReachableComment, List.any_eq_true,
    Bool.and_eq_true, beq_iff_eq, goalReach_iff]

/-- C4: every list and detail queryset is restricted to
participant-reachable records, and the Category and Board querysets are
additionally restricted to rows with `is_deleted = False`. -/
theorem querysets_participant_scoped (db : DB) (u : Nat) :
    (∀ c ∈ goalCategoryListQueryset db u,
        ParticipantReachableCat db u c ∧ c.is_deleted = false) ∧
    (∀ c ∈ goalCategoryDetailQueryset db u,
        ParticipantReachableCat db u c ∧ c.is_deleted = false) ∧
    (∀ g ∈ goalListQueryset db u, ParticipantReachableGoal db u g) ∧
    (∀ g ∈ goalDetailQueryset db u, ParticipantReachableGoal db u g) ∧
    (∀ cm ∈ goalCommentListQueryset db u, ParticipantReachableComment db u cm) ∧
    (∀ cm ∈ goalCommentDetailQueryset db u, ParticipantReachableComment db u cm) ∧
    (∀ b ∈ boardListQueryset db u,
        ParticipantReachableBoard db u b ∧ b.is_deleted = false) ∧
    (∀ b ∈ boardDetailQueryset db u,
        ParticipantReachableBoard db u b ∧ b.is_deleted = false) := by
  refine ⟨?_, ?_, ?_, ?_, ?_, ?_, ?_, ?_⟩ <;> intro x hx
  · simp only [goalCategoryListQueryset, List.mem_filter, Bool.and_eq_true,
      Bool.not_eq_true'] at hx
    exact ⟨(catReach_iff db u x).mp hx.2.1, hx.2.2⟩
  · simp only [goalCategoryDetailQueryset, List.mem_filter, Bool.and_eq_true,
      Bool.not_eq_true'] at hx
    exact ⟨(catReach_iff db u x).mp hx.2.1, hx.2.2⟩
  · simp only [goalListQueryset, List.mem_filter, Bool.and_eq_true] at hx
    exact (goalReach_iff db u x).mp hx.2.1
  · simp only [goalDetailQueryset, List.mem_filter] at hx
    exact (goalReach_iff db u x).mp hx.2
  · simp only [goalCommentListQueryset, List.mem_filter] at hx
    exact (commentReach_iff db u x).mp hx.2
  · simp only [goalCommentDetailQueryset, List.mem_filter] at hx
    exact (commentReach_iff db u x).mp hx.2
  · simp only [boardListQueryset, List.mem_filter, Bool.and_eq_true,
      Bool.not_eq_true'] at hx
    exact ⟨(boardHasParticipant_iff db u x).mp hx.2.1, hx.2.2⟩
  · simp only [boardDetailQueryset, List.mem_filter, Bool.and_eq_true,
      Bool.not_eq_true'] at hx
    exact ⟨(boardHasParticipant_iff db u x).mp hx.2.1, hx.2.2⟩

theorem querysets_participant_scoped_witness :
    (⟨10, 1, "c", false⟩ : GoalCategory) ∈ goalCategoryListQueryset sampleDB 7 ∧
    (ParticipantReachableCat sampleDB 7 ⟨10, 1, "c", false⟩ ∧
      (⟨10, 1, "c", false⟩ : GoalCategory).is_deleted = false) :=
  ⟨by decide, (querysets_participant_scoped sampleDB 7).1 ⟨10, 1, "c", false⟩
    (by decide)⟩

/-- C5: a soft-deleted Board or GoalCategory row is absent from the list
queryset for every user, yet a direct lookup of the store by its id still
finds a row. -/
theorem soft_deleted_hidden_but_stored (db : DB) (u : Nat) (b : Board)
    (c : GoalCategory) (hb : b ∈ db.boards) (hbd : b.is_deleted = true)
    (hc : c ∈ db.categories) (hcd : c.is_deleted = true) :
    b ∉ boardListQueryset db u ∧
    (db.boards.find? fun x => x.id == b.id).isSome = true ∧
    c ∉ goalCategoryListQueryset db u ∧
    (db.categories.find? fun x => x.id == c.id).isSome = true := by
  refine ⟨?_, ?_, ?_, ?_⟩
  · intro hmem
    simp only [boardListQueryset, List.mem_filter, Bool.and_eq_true,
      Bool.not_eq_true'] at hmem
    rw [hbd] at hmem
    cases hmem.2.2
  · simp only [List.find?_isSome]
    exact ⟨b, hb, by simp⟩
  · intro hmem
    simp only [goalCategoryListQueryset, List.mem_filter, Bool.and_eq_true,
      Bool.not_eq_true'] at hmem
    rw [hcd] at hmem
    cases hmem.2.2
  · simp only [List.find?_isSome]
    exact ⟨c, hc, by simp⟩

theorem soft_deleted_hidden_but_stored_witness :
    ((⟨2, "x", true⟩ : Board) ∈ sampleDB.boards ∧
      (⟨2, "x", true⟩ : Board).is_deleted = true ∧
      (⟨11, 2, "d", true⟩ : GoalCategory) ∈ sampleDB.categories ∧
      (⟨11, 2, "d", true⟩ : GoalCategory).is_deleted = true) ∧
    ((⟨2, "x", true⟩ : Board) ∉ boardListQueryset sampleDB 7 ∧
      (sampleDB.boards.find? fun x => x.id == 2).isSome = true ∧
      (⟨11, 2, "d", true⟩ : GoalCategory) ∉ goalCategoryListQueryset sampleDB 7 ∧
      (sampleDB.categories.find? fun x => x.id == 11).isSome = true) :=
  ⟨⟨by decide, by decide, by decide, by decide⟩,
    soft_deleted_hidden_but_stored sampleDB 7 ⟨2, "x", true⟩ ⟨11, 2, "d", true⟩
      (by decide) (by decide) (by decide) (by decide)⟩

lemma allowed_getD_mem (n : Nat) :
    allowedChars.getD (n % allowedChars.length) 'a' ∈ allowedChars := by
  have h : n % allowedChars.length < allowedChars.length :=
    Nat.mod_lt _ (by decide)
  rw [List.getD_eq_getElem?_getD, List.getElem?_eq_getElem h, Option.getD_some]
  exact List.getElem_mem h

/-- C6: `set_verification_code` stores exactly the string it returns, the
string has length 10, and every character is from the vocabulary. -/
theorem set_verification_code_spec (t : TgUser) (pick : Nat → Nat) :
    (set_verification_code t pick).1.verification_code =
      (set_verification_code t pick).2 ∧
    (set_verification_code t pick).2.length = 10 ∧
    ∀ ch ∈ ((set_verification_code t pick).2).toList, ch ∈ allowedChars := by
  refine ⟨rfl, ?_, ?_⟩
  · simp [set_verification_code, get_random_string, String.length]
  · intro ch hch
    simp only [set_verification_code, get_random_string, String.toList,
      List.mem_map] at hch
    obtain ⟨i, -, heq⟩ := hch
    rw [← heq]
    exact allowed_getD_mem (pick i)

theorem set_verification_code_spec_witness :
    'a' ∈ ((set_verification_code ⟨1, 2, "abcde", "", none⟩
        (fun i => i)).2).toList ∧
    'a' ∈ allowedChars :=
  ⟨by decide, (set_verification_code_spec ⟨1, 2, "abcde", "", none⟩
    (fun i => i)).2.2 (Char.ofNat 97) (by decide)⟩

/-- C7: category and goal destroy are soft: the row count is unchanged and
the destroyed row survives with `is_deleted = True` (category) or
`status = archived` (goal). -/
theorem destroy_is_soft (db : DB) (cinst : GoalCategory) (ginst : Goal)
    (hc : cinst ∈ db.categories) (hg : ginst ∈ db.goals) :
    (goalCategoryDestroy db cinst).categories.length = db.categories.length ∧
    (∃ c ∈ (goalCategoryDestroy db cinst).categories,
      c.id = cinst.id ∧ c.is_deleted = true) ∧
    (goalDestroy db ginst).goals.length = db.goals.length ∧
    (∃ g ∈ (goalDestroy db ginst).goals,
      g.id = ginst.id ∧ g.status = Status.archived) := by
  refine ⟨by simp [goalCategoryDestroy], ?_, by simp [goalDestroy], ?_⟩
  · refine ⟨{ cinst with is_deleted := true }, ?_, rfl, rfl⟩
    simp only [goalCategoryDestroy]
    have hmap := List.mem_map_of_mem (fun c : GoalCategory =>
      if c.id == cinst.id then { cinst with is_deleted := true } else c) hc
    simpa using hmap
  · refine ⟨{ ginst with status := Status.archived }, ?_, rfl, rfl⟩
    simp only [goalDestroy]
    have hmap := List.mem_map_of_mem (fun g : Goal =>
      if g.id == ginst.id then { ginst with status := Status.archived } else g) hg
    simpa using hmap

theorem destroy_is_soft_witness :
    ((⟨10, 1, "c", false⟩ : GoalCategory) ∈ sampleDB.categories ∧
      (⟨100, 10, "g", Status.in_progress⟩ : Goal) ∈ sampleDB.goals) ∧
    (∃ c ∈ (goalCategoryDestroy sampleDB ⟨10, 1, "c", false⟩).categories,
      c.id = 10 ∧ c.is_deleted = true) :=
  ⟨⟨by decide, by decide⟩,
    (destroy_is_soft sampleDB ⟨10, 1, "c", false⟩ ⟨100, 10, "g", Status.in_progress⟩
      (by decide) (by decide)).2.1⟩

/-- C8: comment destroy is a hard delete: no row with the destroyed id
remains; board, category and goal destroy keep their row counts. -/
theorem comment_destroy_is_hard (db : DB) (inst : GoalComment)
    (binst : Board) (cinst : GoalCategory) (ginst : Goal) :
    (∀ cm ∈ (goalCommentDestroy db inst).comments, cm.id ≠ inst.id) ∧
    inst ∉ (goalCommentDestroy db inst).comments ∧
    (boardDestroy db binst).boards.length = db.boards.length ∧
    (goalCategoryDestroy db cinst).categories.length = db.categories.length ∧
    (goalDestroy db ginst).goals.length = db.goals.length := by
  refine ⟨?_, ?_, by simp [boardDestroy, boardDestroyBoards],
    by simp [goalCategoryDestroy], by simp [goalDestroy]⟩
  · intro cm hcm
    simp only [goalCommentDestroy, List.mem_filter, Bool.not_eq_true',
      beq_eq_false_iff_ne] at hcm
    exact hcm.2
  · intro hmem
    simp only [goalCommentDestroy, List.mem_filter, Bool.not_eq_true',
      beq_eq_false_iff_ne] at hmem
    exact hmem.2 rfl

theorem comment_destroy_is_hard_witness :
    (⟨1000, 100, 7, "hi"⟩ : GoalComment) ∈ sampleDB.comments ∧
    (⟨1000, 100, 7, "hi"⟩ : GoalComment) ∉
      (goalCommentDestroy sampleDB ⟨1000, 100, 7, "hi"⟩).comments :=
  ⟨by decide,
    (comment_destroy_is_hard sampleDB ⟨1000, 100, 7, "hi"⟩ ⟨1, "b", false⟩
      ⟨10, 1, "c", false⟩ ⟨100, 10, "g", Status.in_progress⟩).2.1⟩

lemma cat_eq_of_id_eq {l : List GoalCategory}
    (hp : l.Pairwise fun a b => a.id ≠ b.id) :
    ∀ {a b : GoalCategory}, a ∈ l → b ∈ l → a.id = b.id → a = b := by
  induction hp with
  | nil =>
    intro a b ha _ _
    cases ha
  | cons hhead _ ih =>
    intro a b ha hb hid
    cases ha with
    | head =>
      cases hb with
      | head => rfl
      | tail _ hb2 => exact absurd hid (hhead b hb2)
    | tail _ ha2 =>
      cases hb with
      | head => exact absurd hid.symm (hhead a ha2)
      | tail _ hb2 => exact ih ha2 hb2 hid

/-- C9: destroying one category only flips that category row's
`is_deleted` column; boards, participants, goals and comments are left
untouched, and every other category row is unchanged. -/
theorem category_destroy_frame (db : DB) (inst : GoalCategory)
    (hmem : inst ∈ db.categories)
    (huniq : db.categories.Pairwise fun a b => a.id ≠ b.id) :
    (goalCategoryDestroy db inst).boards = db.boards ∧
    (goalCategoryDestroy db inst).participants = db.participants ∧
    (goalCategoryDestroy db inst).goals = db.goals ∧
    (goalCategoryDestroy db inst).comments = db.comments ∧
    (goalCategoryDestroy db inst).categories =
      db.categories.map fun c =>
        if c.id = inst.id then { c with is_deleted := true } else c := by
  refine ⟨rfl, rfl, rfl, rfl, ?_⟩
  simp only [goalCategoryDestroy]
  apply List.map_congr_left
  intro c hc
  by_cases h : c.id = inst.id
  · have hceq : c = inst := cat_eq_of_id_eq huniq hc hmem h
    subst hceq
    simp
  · simp [h]

theorem category_destroy_frame_witness :
    ((⟨10, 1, "c", false⟩ : GoalCategory) ∈ sampleDB.categories ∧
      sampleDB.categories.Pairwise fun a b => a.id ≠ b.id) ∧
    (goalCategoryDestroy sampleDB ⟨10, 1, "c", false⟩).goals = sampleDB.goals :=
  ⟨⟨by decide, by decide⟩,
    (category_destroy_frame sampleDB ⟨10, 1, "c", false⟩ (by decide)
      (by decide)).2.2.1⟩

lemma boardDestroyBoards_idem (inst : Board) (bs : List Board) :
    boardDestroyBoards inst (boardDestroyBoards inst bs) =
      boardDestroyBoards inst bs := by
  simp only [boardDestroyBoards, List.map_map]
  apply List.map_congr_left
  intro b _
  by_cases h : (b.id == inst.id) = true
  · simp [Function.comp, h]
  · simp [Function.comp, h]

lemma boardDestroyCats_idem (bid : Nat) (cats : List GoalCategory) :
    boardDestroyCats bid (boardDestroyCats bid cats) =
      boardDestroyCats bid cats := by
  simp only [boardDestroyCats, List.map_map]
  apply List.map_congr_left
  intro c _
  by_cases h : (c.board == bid) = true
  · simp [Function.comp, h]
  · simp [Function.comp, h]

lemma boardDestroyGoals_idem (cats : List GoalCategory) (bid : Nat)
    (gs : List Goal) :
    boardDestroyGoals cats bid (boardDestroyGoals cats bid gs) =
      boardDestroyGoals cats bid gs := by
  simp only [boardDestroyGoals, List.map_map]
  apply List.map_congr_left
  intro g _
  by_cases h : goalInBoard cats bid g = true
  · have h2 : goalInBoard cats bid { g with status := Status.archived } = true := h
    simp [Function.comp, h, h2]
  · simp [Function.comp, h]

/-- C10: the board destroy cascade is idempotent: running
`BoardView.perform_destroy` twice on the same board leaves the same store
as running it once. -/
theorem board_destroy_idempotent (db : DB) (inst : Board) :
    boardDestroy (boardDestroy db inst) inst = boardDestroy db inst := by
  simp only [boardDestroy]
  rw [boardDestroyBoards_idem, boardDestroyCats_idem, boardDestroyGoals_idem]

end ToDoList
